import Mathlib

/-!
Shallow embedding of the trust-evaluation, caching and monitoring engine of
the DeFi backend: `src/backend/utils/trust-level.ts`,
`src/backend/services/rug-pull-checker.ts` and the configuration constants
from `backend/config/platforms.ts`.

JavaScript numbers are modelled as rationals (ℚ), `Date` timestamps as
integers (milliseconds since epoch), `Map`/`Set` state as a lookup function
and an insertion-ordered list.
-/

/-- `SafetyIndicators` from `src/backend/types/defi.d.ts`. -/
structure SafetyIndicators where
  rugPullRisk : ℚ
  liquidityScore : ℚ
  holderDistribution : ℚ
  contractVerified : Bool
  honeypotDetected : Bool
  hasRenounced : Bool
  deriving DecidableEq, Repr

/-- `TrustLevel` from `src/backend/types/defi.d.ts`: 'red' | 'yellow' | 'green'. -/
inductive TrustLevel where
  | red
  | yellow
  | green
  deriving DecidableEq, Repr

/-- `Omit<ContractMetadata, 'trustLevel'>` from `src/backend/types/defi.d.ts`,
the shape consumed by `calculateTrustLevel`. -/
structure ContractMetadata where
  name : String
  address : String
  deployer : String
  contractAge : ℚ
  transactionVolume : ℚ
  safetyScore : ℚ
  deriving DecidableEq, Repr

/-- One tier's entry of `TRUST_LEVEL_THRESHOLDS` in `backend/config/platforms.ts`. -/
structure TierThresholds where
  minSafetyScore : ℚ
  maxRugPullRisk : ℚ
  minContractAge : ℚ
  minTransactionVolume : ℚ
  deriving DecidableEq, Repr

/-- The green and yellow rows of `TRUST_LEVEL_THRESHOLDS` (the red row is empty). -/
structure TrustLevelThresholds where
  green : TierThresholds
  yellow : TierThresholds
  deriving DecidableEq, Repr

/-- `TRUST_LEVEL_THRESHOLDS` from `backend/config/platforms.ts`. -/
def TRUST_LEVEL_THRESHOLDS : TrustLevelThresholds where
  green :=
    { minSafetyScore := 80
      maxRugPullRisk := 20
      minContractAge := 30
      minTransactionVolume := 100000 }
  yellow :=
    { minSafetyScore := 50
      maxRugPullRisk := 50
      minContractAge := 7
      minTransactionVolume := 10000 }

/-- `SAFETY_CHECK_INTERVALS.rugPullCheck` from `backend/config/platforms.ts`:
5 * 60 * 1000 milliseconds. -/
def rugPullCheckInterval : Int := 5 * 60 * 1000

/-- JavaScript `Math.round`: nearest integer, halves toward positive infinity. -/
def jsRound (x : ℚ) : Int := ⌊x + 1 / 2⌋

/-- `calculateTrustLevel` from `src/backend/utils/trust-level.ts`. -/
def calculateTrustLevel (metadata : ContractMetadata)
    (indicators : SafetyIndicators) : TrustLevel :=
  if indicators.honeypotDetected || !indicators.contractVerified then
    .red
  else if indicators.rugPullRisk > TRUST_LEVEL_THRESHOLDS.yellow.maxRugPullRisk then
    .red
  else if metadata.safetyScore ≥ TRUST_LEVEL_THRESHOLDS.green.minSafetyScore ∧
      indicators.rugPullRisk ≤ TRUST_LEVEL_THRESHOLDS.green.maxRugPullRisk ∧
      metadata.contractAge ≥ TRUST_LEVEL_THRESHOLDS.green.minContractAge ∧
      metadata.transactionVolume ≥ TRUST_LEVEL_THRESHOLDS.green.minTransactionVolume then
    .green
  else if metadata.safetyScore ≥ TRUST_LEVEL_THRESHOLDS.yellow.minSafetyScore ∧
      indicators.rugPullRisk ≤ TRUST_LEVEL_THRESHOLDS.yellow.maxRugPullRisk ∧
      metadata.contractAge ≥ TRUST_LEVEL_THRESHOLDS.yellow.minContractAge ∧
      metadata.transactionVolume ≥ TRUST_LEVEL_THRESHOLDS.yellow.minTransactionVolume then
    .yellow
  else
    .red

/-- The value of the mutable `score` variable of `calculateSafetyScore`
(`src/backend/utils/trust-level.ts`) just before the final clamp line. -/
def calculateSafetyScoreRaw (indicators : SafetyIndicators) : ℚ :=
  let score0 : ℚ := 50
  let score1 := if indicators.contractVerified then score0 + 15 else score0
  let score2 := if indicators.hasRenounced then score1 + 10 else score1
  let score3 := if indicators.liquidityScore > 70 then score2 + 10 else score2
  let score4 := if indicators.holderDistribution > 60 then score3 + 10 else score3
  let score5 := if indicators.honeypotDetected then score4 - 40 else score4
  score5 - indicators.rugPullRisk * (3 / 10)

/-- `calculateSafetyScore` from `src/backend/utils/trust-level.ts`: the score
accumulates from the baseline 50 through the conditional bonuses and
penalties, then `Math.max(0, Math.min(100, Math.round(score)))`. -/
def calculateSafetyScore (indicators : SafetyIndicators) : ℚ :=
  max 0 (min 100 ((jsRound (calculateSafetyScoreRaw indicators) : ℤ) : ℚ))

/-- `generateMiterSignals` from `src/backend/utils/trust-level.ts`: the
sequential pushes are modelled as concatenation of the segments in push order. -/
def generateMiterSignals (indicators : SafetyIndicators)
    (trustLevel : TrustLevel) : List String :=
  (if trustLevel = .red then ["HIGH_RISK"] else []) ++
  (if indicators.honeypotDetected then ["HONEYPOT_DETECTED"] else []) ++
  (if !indicators.contractVerified then ["UNVERIFIED_CONTRACT"] else []) ++
  (if indicators.rugPullRisk > 70 then ["CRITICAL_RUG_RISK"]
   else if indicators.rugPullRisk > 40 then ["ELEVATED_RUG_RISK"] else []) ++
  (if indicators.liquidityScore < 30 then ["LOW_LIQUIDITY"] else []) ++
  (if indicators.holderDistribution < 30 then ["CONCENTRATED_HOLDERS"] else []) ++
  (if !indicators.hasRenounced then ["OWNERSHIP_NOT_RENOUNCED"] else [])

/-- The spec's closed-form description of the safety score (section 4.1):
round(50 + 15·[verified] + 10·[renounced] + 10·[liquidityScore>70]
+ 10·[holderDistribution>60] − 40·[honeypot] − 0.3·rugPullRisk) clamped
to [0,100]. Written from the spec's words, to be compared with
`calculateSafetyScore`. -/
def specSafetyScoreRaw (indicators : SafetyIndicators) : ℚ :=
  50 + (if indicators.contractVerified then (15 : ℚ) else 0)
  + (if indicators.hasRenounced then (10 : ℚ) else 0)
  + (if indicators.liquidityScore > 70 then (10 : ℚ) else 0)
  + (if indicators.holderDistribution > 60 then (10 : ℚ) else 0)
  - (if indicators.honeypotDetected then (40 : ℚ) else 0)
  - (3 / 10) * indicators.rugPullRisk

/-- The clamped spec formula: round, then clamp to [0,100]. -/
def specSafetyScore (indicators : SafetyIndicators) : ℚ :=
  max 0 (min 100 ((jsRound (specSafetyScoreRaw indicators) : ℤ) : ℚ))

/-- `RugPullCheckResult` from `src/backend/types/defi.d.ts`; the `Date`
timestamp is modelled as milliseconds since epoch. -/
structure RugPullCheckResult where
  contractAddress : String
  isUnsafe : Bool
  riskLevel : TrustLevel
  indicators : SafetyIndicators
  miterSignals : List String
  timestamp : Int
  deriving DecidableEq, Repr

/-- The private mutable state of a `RugPullChecker` instance
(`src/backend/services/rug-pull-checker.ts`): the `checkCache` Map keyed by
contract address and the `monitoredContracts` Set (insertion-ordered, as a
JavaScript Set iterates in insertion order). -/
structure CheckerState where
  checkCache : String → Option RugPullCheckResult
  monitoredContracts : List String

/-- `RugPullChecker.calculateRugPullRisk`: the placeholder returns a moderate
risk of 30 for every address. -/
def calculateRugPullRisk (contractAddress : String) : ℚ := 30

/-- `RugPullChecker.analyzeContract`: the placeholder implementation returns
fixed indicators with the placeholder rug-pull risk. -/
def analyzeContract (contractAddress : String) : SafetyIndicators where
  rugPullRisk := calculateRugPullRisk contractAddress
  liquidityScore := 75
  holderDistribution := 70
  contractVerified := true
  honeypotDetected := false
  hasRenounced := false

/-- `RugPullChecker.isCacheValid`: the cached result is valid iff
`now - timestamp < SAFETY_CHECK_INTERVALS.rugPullCheck` (strict). -/
def isCacheValid (now timestamp : Int) : Bool :=
  decide (now - timestamp < rugPullCheckInterval)

/-- The result object built by the fresh-check path of
`RugPullChecker.checkContract` (lines 33-55) from the analyzed indicators:
score, classify with hardcoded `contractAge = 0` and
`transactionVolume = 0`, derive signals, stamp with `now`. -/
def buildCheckResult (contractAddress : String) (indicators : SafetyIndicators)
    (now : Int) : RugPullCheckResult :=
  let safetyScore := calculateSafetyScore indicators
  let metadata : ContractMetadata :=
    { name := "Contract"
      address := contractAddress
      deployer := "Unknown"
      contractAge := 0
      transactionVolume := 0
      safetyScore := safetyScore }
  let riskLevel := calculateTrustLevel metadata indicators
  { contractAddress := contractAddress
    isUnsafe := decide (riskLevel = .red)
    riskLevel := riskLevel
    indicators := indicators
    miterSignals := generateMiterSignals indicators riskLevel
    timestamp := now }

/-- The fresh-check path of `RugPullChecker.checkContract`: analyze, build
the result, and cache it. -/
def freshCheck (s : CheckerState) (contractAddress : String) (now : Int) :
    RugPullCheckResult × CheckerState :=
  let result := buildCheckResult contractAddress (analyzeContract contractAddress) now
  (result,
   { s with checkCache := fun a => if a = contractAddress then some result else s.checkCache a })

/-- `RugPullChecker.checkContract`: serve a valid cached result unchanged,
otherwise perform a fresh check. -/
def checkContract (s : CheckerState) (contractAddress : String) (now : Int) :
    RugPullCheckResult × CheckerState :=
  match s.checkCache contractAddress with
  | some cached =>
    if isCacheValid now cached.timestamp then (cached, s)
    else freshCheck s contractAddress now
  | none => freshCheck s contractAddress now

/-- `RugPullChecker.startMonitoring`: no-op when already monitored, else add
to the set and run one initial check. -/
def startMonitoring (s : CheckerState) (contractAddress : String) (now : Int) :
    CheckerState :=
  if s.monitoredContracts.contains contractAddress then s
  else
    let s1 := { s with monitoredContracts := s.monitoredContracts ++ [contractAddress] }
    (checkContract s1 contractAddress now).2

/-- `RugPullChecker.stopMonitoring`: delete from the monitored set and delete
the cache entry. -/
def stopMonitoring (s : CheckerState) (contractAddress : String) : CheckerState where
  checkCache := fun a => if a = contractAddress then none else s.checkCache a
  monitoredContracts := s.monitoredContracts.filter (fun a => a ≠ contractAddress)

/-- Modelled from the spec: the SignalProvider (spec sections 2 and 6) that
supplies safety indicators for an address and may fail with a provider error.
The repository stubs it (`analyzeContract` never fails), so the fallible
provider interface is taken from the spec's words. -/
def SignalProvider : Type := String → Except String SafetyIndicators

/-- The fresh-check path of `checkContract` with the injected fallible
provider in place of the stubbed `analyzeContract`: a provider error
propagates and nothing is cached (the source throws before `checkCache.set`). -/
def freshCheckP (p : SignalProvider) (s : CheckerState) (contractAddress : String)
    (now : Int) : Except String (RugPullCheckResult × CheckerState) :=
  match p contractAddress with
  | .error e => .error e
  | .ok indicators =>
    let result := buildCheckResult contractAddress indicators now
    .ok (result,
      { s with checkCache := fun a => if a = contractAddress then some result else s.checkCache a })

/-- `RugPullChecker.checkContract` over the injected fallible provider. -/
def checkContractP (p : SignalProvider) (s : CheckerState) (contractAddress : String)
    (now : Int) : Except String (RugPullCheckResult × CheckerState) :=
  match s.checkCache contractAddress with
  | some cached =>
    if isCacheValid now cached.timestamp then .ok (cached, s)
    else freshCheckP p s contractAddress now
  | none => freshCheckP p s contractAddress now

/-- One settled outcome of `RugPullChecker.getTrustRankings`'s fan-out
(lines 195-203): a fulfilled check puts `rankings.set(address, riskLevel)`
into the Map (modelled as a pointwise-updated lookup function, matching
`Map.set` semantics also on repeated addresses); a rejected one is skipped. -/
def rankStep (p : SignalProvider) (now : Int)
    (acc : (String → Option TrustLevel) × CheckerState) (address : String) :
    (String → Option TrustLevel) × CheckerState :=
  match checkContractP p acc.2 address now with
  | .ok rs => (fun a => if a = address then some rs.1.riskLevel else acc.1 a, rs.2)
  | .error _ => acc

/-- `RugPullChecker.getTrustRankings` over the injected fallible provider:
`Promise.allSettled` over per-address checks, then only fulfilled outcomes are
entered into the rankings Map. The concurrent fan-out over the shared cache
state is modelled as the sequential fold of the settled outcomes. -/
def getTrustRankings (p : SignalProvider) (s : CheckerState)
    (contractAddresses : List String) (now : Int) :
    (String → Option TrustLevel) × CheckerState :=
  contractAddresses.foldl (rankStep p now) (fun _ => none, s)

/-- One settled outcome of `RugPullChecker.syncLiveMetadata`'s fan-out: a
fulfilled check updates the shared state, a rejected one is collected (as its
provider error) without aborting the batch. -/
def syncStep (p : SignalProvider) (now : Int) (acc : CheckerState × List String)
    (address : String) : CheckerState × List String :=
  match checkContractP p acc.1 address now with
  | .ok rs => (rs.2, acc.2)
  | .error e => (acc.1, acc.2 ++ [e])

/-- `RugPullChecker.syncLiveMetadata` over the injected fallible provider:
re-check every monitored address; `Promise.allSettled` isolates failures, so
a failing address leaves its outcome as a collected rejection (returned here
as the list of provider errors) and never aborts the rest of the batch. -/
def syncLiveMetadata (p : SignalProvider) (s : CheckerState) (now : Int) :
    CheckerState × List String :=
  s.monitoredContracts.foldl (syncStep p now) (s, [])

/-- Evaluation of an address succeeds in a given state exactly when the cache
holds a fresh entry for it or the provider answers: this is the branch
condition of `checkContractP`, and it is stable across a batch because a step
only rewrites its own address's cache entry, and only with a fresh one. -/
def evalSucceeds (p : SignalProvider) (s : CheckerState) (now : Int)
    (a : String) : Bool :=
  (match s.checkCache a with
   | some c => isCacheValid now c.timestamp
   | none => false) ||
  (match p a with
   | .ok _ => true
   | .error _ => false)

/-- The `{ shouldBlock, reason }` object returned by
`RugPullChecker.flagUnsafeInteractions`. -/
structure FlagOutcome where
  shouldBlock : Bool
  reason : String
  deriving DecidableEq, Repr

/-- The string form of a trust level, as interpolated into the blocking
reason by `flagUnsafeInteractions`. -/
def trustLevelName : TrustLevel → String
  | .red => "red"
  | .yellow => "yellow"
  | .green => "green"

/-- `RugPullChecker.flagUnsafeInteractions`: evaluate the contract, then block
when the result is unsafe (red), else when a honeypot was detected, else when
`rugPullRisk > 70`; otherwise pass. -/
def flagUnsafeInteractions (s : CheckerState) (contractAddress : String)
    (now : Int) : FlagOutcome × CheckerState :=
  let rs := checkContract s contractAddress now
  let result := rs.1
  if result.isUnsafe then
    ({ shouldBlock := true
       reason := "Contract flagged as " ++ trustLevelName result.riskLevel ++ ": "
         ++ String.intercalate ", " result.miterSignals }, rs.2)
  else if result.indicators.honeypotDetected then
    ({ shouldBlock := true
       reason := "Honeypot detected - transaction may not be reversible" }, rs.2)
  else if result.indicators.rugPullRisk > 70 then
    ({ shouldBlock := true, reason := "Critical rug pull risk detected" }, rs.2)
  else
    ({ shouldBlock := false, reason := "Contract passed safety checks" }, rs.2)

/-- Every cached result records `isUnsafe` consistently with its risk level,
as `checkContract` creates results with `isUnsafe = (riskLevel === 'red')`.
This invariant holds for every state reachable from an empty cache. -/
def WellFormedCache (s : CheckerState) : Prop :=
  ∀ a c, s.checkCache a = some c → c.isUnsafe = decide (c.riskLevel = .red)

/-- The eight advisory tags in the fixed emission order of
`generateMiterSignals`, written as the concatenation of its push sites. -/
def signalTagOrder : List String :=
  ["HIGH_RISK"] ++ ["HONEYPOT_DETECTED"] ++ ["UNVERIFIED_CONTRACT"] ++
  ["CRITICAL_RUG_RISK"] ++ ["ELEVATED_RUG_RISK"] ++ ["LOW_LIQUIDITY"] ++
  ["CONCENTRATED_HOLDERS"] ++ ["OWNERSHIP_NOT_RENOUNCED"]

/-- The spec's per-tag emission condition (section 4.3), written from the
spec's words: ELEVATED applies only when CRITICAL does not (mutual
exclusivity). Used to compare `generateMiterSignals` with the filtered
canonical order. -/
def signalActive (indicators : SafetyIndicators) (tier : TrustLevel)
    (tag : String) : Bool :=
  if tag = "HIGH_RISK" then decide (tier = .red)
  else if tag = "HONEYPOT_DETECTED" then indicators.honeypotDetected
  else if tag = "UNVERIFIED_CONTRACT" then !indicators.contractVerified
  else if tag = "CRITICAL_RUG_RISK" then decide (indicators.rugPullRisk > 70)
  else if tag = "ELEVATED_RUG_RISK" then
    decide (¬ indicators.rugPullRisk > 70 ∧ indicators.rugPullRisk > 40)
  else if tag = "LOW_LIQUIDITY" then decide (indicators.liquidityScore < 30)
  else if tag = "CONCENTRATED_HOLDERS" then decide (indicators.holderDistribution < 30)
  else if tag = "OWNERSHIP_NOT_RENOUNCED" then !indicators.hasRenounced
  else false

/-- A provider that fails on exactly the address "b" and answers moderate
indicators everywhere else; a concrete one-failure batch scenario. -/
def oneFailProvider : SignalProvider := fun a =>
  if a = "b" then .error "provider error" else .ok ⟨30, 75, 70, true, false, false⟩

/-- An empty-cache checker state monitoring the addresses "a", "b", "c". -/
def threeMonitoredState : CheckerState := ⟨fun _ => none, ["a", "b", "c"]⟩

/-- The accumulated score of the source and the signed sum of the spec agree
before rounding and clamping. -/
theorem safetyScoreRaw_eq (indicators : SafetyIndicators) :
    calculateSafetyScoreRaw indicators = specSafetyScoreRaw indicators := by
  obtain ⟨rp, lq, hd, cv, hp, hr⟩ := indicators
  simp only [calculateSafetyScoreRaw, specSafetyScoreRaw]
  cases cv <;> cases hr <;> cases hp <;>
    by_cases h3 : lq > 70 <;> by_cases h4 : hd > 60 <;>
      simp [h3, h4] <;> ring

/-- C1: `calculateSafetyScore` equals the spec's closed-form formula
(round of the signed sum, then clamp to [0,100]) and its output always lies
in [0,100]. Determinism and freedom from side effects hold by construction:
the embedding is a total function of the indicators alone. -/
theorem calculateSafetyScore_spec (indicators : SafetyIndicators) :
    calculateSafetyScore indicators = specSafetyScore indicators ∧
    0 ≤ calculateSafetyScore indicators ∧ calculateSafetyScore indicators ≤ 100 := by
  refine ⟨?_, ?_, ?_⟩
  · unfold calculateSafetyScore specSafetyScore
    rw [safetyScoreRaw_eq]
  · exact le_max_left 0 _
  · exact max_le (by norm_num) (min_le_left 100 _)

/-- C2: the honeypot / unverified veto: whenever `honeypotDetected` is true or
`contractVerified` is false, `calculateTrustLevel` returns red regardless of
every other metadata and indicator field. -/
theorem calculateTrustLevel_veto (metadata : ContractMetadata)
    (indicators : SafetyIndicators)
    (h : indicators.honeypotDetected = true ∨ indicators.contractVerified = false) :
    calculateTrustLevel metadata indicators = .red := by
  unfold calculateTrustLevel
  rcases h with h | h <;> simp [h]

/-- Witness for C2 at a concrete input: a honeypot contract is classified red
even with perfect numeric fields. -/
theorem calculateTrustLevel_veto_witness :
    ((⟨(0 : ℚ), 100, 100, true, true, true⟩ : SafetyIndicators).honeypotDetected = true ∨
      (⟨(0 : ℚ), 100, 100, true, true, true⟩ : SafetyIndicators).contractVerified = false) ∧
    calculateTrustLevel ⟨"Contract", "addr", "Unknown", 365, 1000000, 100⟩
      ⟨0, 100, 100, true, true, true⟩ = .red :=
  ⟨Or.inl rfl,
   calculateTrustLevel_veto ⟨"Contract", "addr", "Unknown", 365, 1000000, 100⟩
     ⟨0, 100, 100, true, true, true⟩ (Or.inl rfl)⟩

/-- C3: boundary values are inclusive on the safe side: with
contractVerified = true, honeypotDetected = false and the metadata sitting
exactly at every green threshold (safetyScore 80, rugPullRisk 20,
contractAge 30, transactionVolume 100000), `calculateTrustLevel` returns
green, for every choice of the remaining (irrelevant) fields. -/
theorem calculateTrustLevel_boundary (nm ad dp : String)
    (liq hold : ℚ) (ren : Bool) :
    calculateTrustLevel ⟨nm, ad, dp, 30, 100000, 80⟩
      ⟨20, liq, hold, true, false, ren⟩ = .green := by
  unfold calculateTrustLevel
  norm_num [TRUST_LEVEL_THRESHOLDS]

/-- After any `checkContract` call, the returned result is the cache entry for
that address in the returned state (a hit leaves it in place, a miss writes it). -/
theorem checkContract_caches (s : CheckerState) (addr : String) (now : Int) :
    (checkContract s addr now).2.checkCache addr = some (checkContract s addr now).1 := by
  unfold checkContract
  cases hcc : s.checkCache addr with
  | none => simp [freshCheck]
  | some cached =>
    by_cases hv : isCacheValid now cached.timestamp = true
    · simp [hv, hcc]
    · simp [hv, freshCheck]

/-- C4: cache freshness is the strict inequality
`now - timestamp < SAFETY_CHECK_INTERVALS.rugPullCheck`, and a cache entry
whose age equals the TTL exactly is stale: `checkContract` takes the
fresh-check path instead of serving it. -/
theorem isCacheValid_strict :
    (∀ now timestamp : Int,
      isCacheValid now timestamp = true ↔ now - timestamp < rugPullCheckInterval) ∧
    (∀ (s : CheckerState) (addr : String) (now : Int) (c : RugPullCheckResult),
      s.checkCache addr = some c → now - c.timestamp = rugPullCheckInterval →
      checkContract s addr now = freshCheck s addr now) := by
  constructor
  · intro now timestamp
    simp [isCacheValid]
  · intro s addr now c hcc hage
    unfold checkContract
    rw [hcc]
    have hv : isCacheValid now c.timestamp = false := by
      simp [isCacheValid, hage]
    simp [hv]

/-- Witness for C4: with a cache entry stamped 0 read at exactly the
300000 ms TTL, `checkContract` recomputes. -/
theorem isCacheValid_strict_witness :
    (isCacheValid 5 0 = true ↔ (5 : Int) - 0 < rugPullCheckInterval) ∧
    (checkContract
        ⟨fun a => if a = "addr" then some ⟨"addr", true, .red, analyzeContract "addr", [], 0⟩ else none, []⟩
        "addr" 300000 =
      freshCheck
        ⟨fun a => if a = "addr" then some ⟨"addr", true, .red, analyzeContract "addr", [], 0⟩ else none, []⟩
        "addr" 300000) :=
  ⟨isCacheValid_strict.1 5 0,
   isCacheValid_strict.2
     ⟨fun a => if a = "addr" then some ⟨"addr", true, .red, analyzeContract "addr", [], 0⟩ else none, []⟩
     "addr" 300000 ⟨"addr", true, .red, analyzeContract "addr", [], 0⟩
     (by simp) (by decide)⟩

/-- C5: evaluation is idempotent inside the TTL window: if the result of a
first `checkContract` call is still fresh at time `t2`, a second call returns
the identical result (same `timestamp` included) and the identical state —
no recomputation and no cache write. -/
theorem checkContract_idempotent (s : CheckerState) (addr : String) (t1 t2 : Int)
    (h : t2 - (checkContract s addr t1).1.timestamp < rugPullCheckInterval) :
    checkContract (checkContract s addr t1).2 addr t2 = checkContract s addr t1 := by
  have hcache := checkContract_caches s addr t1
  rcases hres : checkContract s addr t1 with ⟨r1, s1⟩
  rw [hres] at hcache h
  show checkContract s1 addr t2 = (r1, s1)
  have hv : isCacheValid t2 r1.timestamp = true := by
    simp [isCacheValid, h]
  unfold checkContract
  rw [hcache]
  simp [hv]

/-- Witness for C5: on an empty cache, checking at time 0 and again at time 5
returns the identical result and state. -/
theorem checkContract_idempotent_witness :
    ((5 : Int) - (checkContract ⟨fun _ => none, []⟩ "a" 0).1.timestamp < rugPullCheckInterval) ∧
    checkContract (checkContract ⟨fun _ => none, []⟩ "a" 0).2 "a" 5 =
      checkContract ⟨fun _ => none, []⟩ "a" 0 :=
  ⟨by decide, checkContract_idempotent ⟨fun _ => none, []⟩ "a" 0 5 (by decide)⟩

/-- C6: `stopMonitoring` removes the address from the monitored set and evicts
its cache entry; consequently an immediately following `checkContract` cannot
serve the pre-stop cached value: it takes the fresh-check path and returns a
result freshly stamped with the evaluation time. -/
theorem stopMonitoring_evicts (s : CheckerState) (addr : String) :
    addr ∉ (stopMonitoring s addr).monitoredContracts ∧
    (stopMonitoring s addr).checkCache addr = none ∧
    ∀ now : Int, checkContract (stopMonitoring s addr) addr now =
      freshCheck (stopMonitoring s addr) addr now ∧
      (checkContract (stopMonitoring s addr) addr now).1.timestamp = now := by
  refine ⟨?_, ?_, ?_⟩
  · simp [stopMonitoring, List.mem_filter]
  · simp [stopMonitoring]
  · intro now
    have hnone : (stopMonitoring s addr).checkCache addr = none := by
      simp [stopMonitoring]
    constructor
    · unfold checkContract
      rw [hnone]
    · unfold checkContract
      rw [hnone]
      simp [freshCheck, buildCheckResult]

/-- Counterexample for C8 as stated: with tier red, a detected honeypot, an
unverified contract, rugPullRisk 80, liquidityScore 10, holderDistribution 10
and ownership not renounced, `generateMiterSignals` emits seven distinct
tags, not at most six. -/
theorem generateMiterSignals_seven_tags :
    generateMiterSignals ⟨80, 10, 10, false, true, false⟩ .red =
      ["HIGH_RISK", "HONEYPOT_DETECTED", "UNVERIFIED_CONTRACT", "CRITICAL_RUG_RISK",
       "LOW_LIQUIDITY", "CONCENTRATED_HOLDERS", "OWNERSHIP_NOT_RENOUNCED"] ∧
    (generateMiterSignals ⟨80, 10, 10, false, true, false⟩ .red).dedup.length = 7 := by
  decide

/-- A conditional singleton segment has length at most one. -/
theorem length_ite_singleton_le (c : Prop) [Decidable c] (a : String) :
    (if c then [a] else []).length ≤ 1 := by
  split <;> simp

/-- The mutually exclusive rug-risk segment has length at most one. -/
theorem length_rug_segment_le (c1 c2 : Prop) [Decidable c1] [Decidable c2]
    (a b : String) :
    (if c1 then [a] else if c2 then [b] else []).length ≤ 1 := by
  split_ifs <;> simp

/-- C8 (amended): `generateMiterSignals` is exactly the canonical ordered tag
list filtered by the per-tag conditions (so the emission order is fixed as
HIGH_RISK, HONEYPOT_DETECTED, UNVERIFIED_CONTRACT, CRITICAL_RUG_RISK or
ELEVATED_RUG_RISK — mutually exclusive — LOW_LIQUIDITY, CONCENTRATED_HOLDERS,
OWNERSHIP_NOT_RENOUNCED), it is a pure function, and the sequence holds at
most seven (not six) distinct tags. -/
theorem generateMiterSignals_characterization (indicators : SafetyIndicators)
    (tier : TrustLevel) :
    generateMiterSignals indicators tier =
      signalTagOrder.filter (signalActive indicators tier) ∧
    (generateMiterSignals indicators tier).length ≤ 7 := by
  constructor
  · obtain ⟨rp, lq, hd, cv, hp, hr⟩ := indicators
    simp only [generateMiterSignals, signalTagOrder, List.filter_append, List.filter_singleton,
      signalActive, if_true, if_false]
    by_cases h70 : rp > 70 <;> by_cases h40 : rp > 40 <;>
      cases cv <;> cases hp <;> cases hr <;>
        simp [h70, h40, Bool.cond_eq_ite]
  · simp only [generateMiterSignals, List.length_append]
    have h1 := length_ite_singleton_le (tier = .red) "HIGH_RISK"
    have h2 := length_ite_singleton_le (indicators.honeypotDetected = true) "HONEYPOT_DETECTED"
    have h3 := length_ite_singleton_le ((!indicators.contractVerified) = true) "UNVERIFIED_CONTRACT"
    have h4 := length_rug_segment_le (indicators.rugPullRisk > 70) (indicators.rugPullRisk > 40)
      "CRITICAL_RUG_RISK" "ELEVATED_RUG_RISK"
    have h5 := length_ite_singleton_le (indicators.liquidityScore < 30) "LOW_LIQUIDITY"
    have h6 := length_ite_singleton_le (indicators.holderDistribution < 30) "CONCENTRATED_HOLDERS"
    have h7 := length_ite_singleton_le ((!indicators.hasRenounced) = true) "OWNERSHIP_NOT_RENOUNCED"
    omega

/-- With the metadata `checkContract` hardcodes (contractAge 0,
transactionVolume 0), the classifier can never reach green or yellow:
0 is below both minimum-age thresholds. -/
theorem calculateTrustLevel_age_zero (nm ad dp : String) (score : ℚ)
    (indicators : SafetyIndicators) :
    calculateTrustLevel ⟨nm, ad, dp, 0, 0, score⟩ indicators = .red := by
  unfold calculateTrustLevel
  norm_num [TRUST_LEVEL_THRESHOLDS]

/-- A `checkContract` result always records `isUnsafe` consistently with its
risk level, given a well-formed cache. -/
theorem checkContract_wellFormed (s : CheckerState) (addr : String) (now : Int)
    (h : WellFormedCache s) :
    (checkContract s addr now).1.isUnsafe =
      decide ((checkContract s addr now).1.riskLevel = .red) := by
  unfold checkContract
  cases hcc : s.checkCache addr with
  | none => simp [freshCheck, buildCheckResult]
  | some cached =>
    by_cases hv : isCacheValid now cached.timestamp = true
    · simpa [hv] using h addr cached hcc
    · simp [hv, freshCheck, buildCheckResult]

/-- C9: `flagUnsafeInteractions` blocks exactly when the evaluated result is
red-tier, or a honeypot was detected, or rugPullRisk exceeds 70; when none of
these hold it returns shouldBlock = false. The rugPullRisk > 70 branch is its
own independent check in the source, reached only after the tier and honeypot
branches decline. -/
theorem flagUnsafeInteractions_blocks (s : CheckerState) (addr : String) (now : Int)
    (h : WellFormedCache s) :
    ((flagUnsafeInteractions s addr now).1.shouldBlock = true) ↔
      ((checkContract s addr now).1.riskLevel = .red ∨
       (checkContract s addr now).1.indicators.honeypotDetected = true ∨
       (checkContract s addr now).1.indicators.rugPullRisk > 70) := by
  have hu := checkContract_wellFormed s addr now h
  rcases hres : checkContract s addr now with ⟨r, s1⟩
  rw [hres] at hu
  simp only [flagUnsafeInteractions, hres]
  by_cases hb : r.isUnsafe = true
  · have hred : r.riskLevel = .red := by
      rw [hb] at hu
      exact of_decide_eq_true hu.symm
    simp [hb, hred]
  · have hnred : ¬ r.riskLevel = .red := by
      intro hc
      rw [hc] at hu
      simp at hu
      exact hb hu
    by_cases hh : r.indicators.honeypotDetected = true
    · simp [hb, hh]
    · by_cases h70 : r.indicators.rugPullRisk > 70
      · simp [hb, hh, h70]
      · simp [hb, hh, h70, hnred]

/-- Witness for C9 on the empty (trivially well-formed) state. -/
theorem flagUnsafeInteractions_blocks_witness :
    WellFormedCache ⟨fun _ => none, []⟩ ∧
    (((flagUnsafeInteractions ⟨fun _ => none, []⟩ "a" 0).1.shouldBlock = true) ↔
      ((checkContract ⟨fun _ => none, []⟩ "a" 0).1.riskLevel = .red ∨
       (checkContract ⟨fun _ => none, []⟩ "a" 0).1.indicators.honeypotDetected = true ∨
       (checkContract ⟨fun _ => none, []⟩ "a" 0).1.indicators.rugPullRisk > 70)) :=
  ⟨fun _ c h => Option.noConfusion h,
   flagUnsafeInteractions_blocks ⟨fun _ => none, []⟩ "a" 0 (fun _ c h => Option.noConfusion h)⟩

/-- C10: whenever `checkContract` cannot serve a fresh cache entry (miss or
stale), the result it produces is red-tier and unsafe for every address and
every indicators value the provider returns, because the hardcoded
contractAge = 0 and transactionVolume = 0 fall below the yellow minimums.
On a provider error both sides propagate the same error. -/
theorem checkContract_fresh_always_red (p : SignalProvider) (s : CheckerState)
    (addr : String) (now : Int)
    (hstale : s.checkCache addr = none ∨
      ∃ c, s.checkCache addr = some c ∧ isCacheValid now c.timestamp = false) :
    (checkContractP p s addr now).map (fun rs => (rs.1.riskLevel, rs.1.isUnsafe)) =
      (p addr).map (fun _ => (TrustLevel.red, true)) := by
  have hfresh : checkContractP p s addr now = freshCheckP p s addr now := by
    unfold checkContractP
    rcases hstale with h | ⟨c, hc, hv⟩
    · rw [h]
    · rw [hc]
      simp [hv]
  rw [hfresh]
  unfold freshCheckP
  cases hp : p addr with
  | error e => simp [Except.map]
  | ok indicators =>
    simp [Except.map, buildCheckResult, calculateTrustLevel_age_zero]

/-- Witness for C10: even a provider reporting perfect indicators (risk 0,
verified, renounced, full liquidity and distribution) yields a red, unsafe
result on a cache miss. -/
theorem checkContract_fresh_always_red_witness :
    ((⟨fun _ => none, []⟩ : CheckerState).checkCache "a" = none ∨
      ∃ c, (⟨fun _ => none, []⟩ : CheckerState).checkCache "a" = some c ∧
        isCacheValid 0 c.timestamp = false) ∧
    (checkContractP (fun _ => .ok ⟨0, 100, 100, true, false, true⟩)
        ⟨fun _ => none, []⟩ "a" 0).map (fun rs => (rs.1.riskLevel, rs.1.isUnsafe)) =
      .ok (TrustLevel.red, true) :=
  ⟨Or.inl rfl,
   checkContract_fresh_always_red (fun _ => .ok ⟨0, 100, 100, true, false, true⟩)
     ⟨fun _ => none, []⟩ "a" 0 (Or.inl rfl)⟩

/-- A result stamped at the current time is always cache-valid (age 0 < TTL). -/
theorem isCacheValid_self (now : Int) : isCacheValid now now = true := by
  unfold isCacheValid rugPullCheckInterval
  simp only [decide_eq_true_eq]
  omega

/-- Anatomy of a successful `checkContractP` step: the returned state holds a
fresh entry for the checked address, every other cache entry and the monitored
set are untouched, and the evaluation condition held in the pre-state. -/
theorem checkContractP_ok_state (p : SignalProvider) (s : CheckerState) (x : String)
    (now : Int) (r : RugPullCheckResult) (s' : CheckerState)
    (h : checkContractP p s x now = .ok (r, s')) :
    s'.checkCache x = some r ∧ isCacheValid now r.timestamp = true ∧
    (∀ b, b ≠ x → s'.checkCache b = s.checkCache b) ∧
    s'.monitoredContracts = s.monitoredContracts ∧
    evalSucceeds p s now x = true := by
  unfold checkContractP at h
  cases hc : s.checkCache x with
  | some cached =>
    rw [hc] at h
    have h' : (if isCacheValid now cached.timestamp = true then
        Except.ok (cached, s) else freshCheckP p s x now) = Except.ok (r, s') := h
    by_cases hv : isCacheValid now cached.timestamp = true
    · rw [if_pos hv] at h'
      injection h' with h1
      injection h1 with hr hs
      subst hr
      subst hs
      refine ⟨hc, hv, fun b _ => rfl, rfl, ?_⟩
      simp [evalSucceeds, hc, hv]
    · rw [if_neg hv] at h'
      unfold freshCheckP at h'
      cases hp : p x with
      | error e => rw [hp] at h'; exact Except.noConfusion h'
      | ok ind =>
        rw [hp] at h'
        injection h' with h1
        injection h1 with hr hs
        subst hr
        subst hs
        refine ⟨by simp, isCacheValid_self now, ?_, rfl, ?_⟩
        · intro b hbx
          simp [hbx]
        · simp [evalSucceeds, hp]
  | none =>
    rw [hc] at h
    have h' : freshCheckP p s x now = Except.ok (r, s') := h
    unfold freshCheckP at h'
    cases hp : p x with
    | error e => rw [hp] at h'; exact Except.noConfusion h'
    | ok ind =>
      rw [hp] at h'
      injection h' with h1
      injection h1 with hr hs
      subst hr
      subst hs
      refine ⟨by simp, isCacheValid_self now, ?_, rfl, ?_⟩
      · intro b hbx
        simp [hbx]
      · simp [evalSucceeds, hp]

/-- When the evaluation condition holds (fresh cache entry or answering
provider), `checkContractP` succeeds. -/
theorem checkContractP_ok_of_succeeds (p : SignalProvider) (s : CheckerState)
    (x : String) (now : Int) (h : evalSucceeds p s now x = true) :
    ∃ r s', checkContractP p s x now = .ok (r, s') := by
  unfold evalSucceeds at h
  unfold checkContractP
  cases hc : s.checkCache x with
  | some cached =>
    rw [hc] at h
    simp only [hc]
    by_cases hv : isCacheValid now cached.timestamp = true
    · exact ⟨cached, s, by rw [if_pos hv]⟩
    · have hbv : isCacheValid now cached.timestamp = false := by
        cases hb : isCacheValid now cached.timestamp
        · rfl
        · exact absurd hb hv
      have h2 : (match p x with | .ok _ => true | .error _ => false) = true := by
        have h3 : (isCacheValid now cached.timestamp ||
            (match p x with | .ok _ => true | .error _ => false)) = true := h
        rw [hbv] at h3
        simpa using h3
      cases hp : p x with
      | error e => rw [hp] at h2; exact Bool.noConfusion h2
      | ok ind =>
        refine ⟨buildCheckResult x ind now,
          { s with checkCache := fun a =>
              if a = x then some (buildCheckResult x ind now) else s.checkCache a },
          ?_⟩
        rw [if_neg hv]
        unfold freshCheckP
        rw [hp]
  | none =>
    rw [hc] at h
    simp only [hc]
    have h2 : (match p x with | .ok _ => true | .error _ => false) = true := by
      simpa using h
    cases hp : p x with
    | error e => rw [hp] at h2; exact Bool.noConfusion h2
    | ok ind =>
      refine ⟨buildCheckResult x ind now,
        { s with checkCache := fun a =>
            if a = x then some (buildCheckResult x ind now) else s.checkCache a },
        ?_⟩
      unfold freshCheckP
      rw [hp]

/-- When the evaluation condition fails, the provider must have failed, and
`checkContractP` propagates exactly its error (and writes nothing). -/
theorem checkContractP_error_of_fails (p : SignalProvider) (s : CheckerState)
    (x : String) (now : Int) (h : evalSucceeds p s now x = false) :
    ∃ e, p x = .error e ∧ checkContractP p s x now = .error e := by
  unfold evalSucceeds at h
  rw [Bool.or_eq_false_iff] at h
  obtain ⟨h1, h2⟩ := h
  cases hp : p x with
  | ok ind => rw [hp] at h2; exact Bool.noConfusion h2
  | error e =>
    refine ⟨e, rfl, ?_⟩
    unfold checkContractP
    cases hc : s.checkCache x with
    | some cached =>
      rw [hc] at h1
      have hv : isCacheValid now cached.timestamp = false := h1
      simp only [hc]
      rw [hv]
      simp [freshCheckP, hp]
    | none =>
      simp only [hc]
      simp [freshCheckP, hp]

/-- A successful step never changes which addresses can be evaluated: it only
rewrites its own cache entry, and only with a fresh one. -/
theorem evalSucceeds_preserved (p : SignalProvider) (s : CheckerState) (x : String)
    (now : Int) (r : RugPullCheckResult) (s' : CheckerState)
    (hok : checkContractP p s x now = .ok (r, s')) :
    ∀ b, evalSucceeds p s' now b = evalSucceeds p s now b := by
  obtain ⟨hx, hxf, hother, _, hev⟩ := checkContractP_ok_state p s x now r s' hok
  intro b
  by_cases hbx : b = x
  · subst hbx
    rw [hev]
    simp [evalSucceeds, hx, hxf]
  · unfold evalSucceeds
    rw [hother b hbx]

/-- The rankings fold, from any accumulator and state: an address is a key of
the resulting Map iff it already was one or it occurs in the list and its
evaluation succeeds (judged in the starting state, which is sound by
`evalSucceeds_preserved`). -/
theorem rankFold_keys (p : SignalProvider) (now : Int) :
    ∀ (addrs : List String) (s : CheckerState) (m : String → Option TrustLevel)
      (a : String),
      (addrs.foldl (rankStep p now) (m, s)).1 a ≠ none ↔
        (m a ≠ none ∨ (a ∈ addrs ∧ evalSucceeds p s now a = true)) := by
  intro addrs
  induction addrs with
  | nil => intro s m a; simp
  | cons x xs ih =>
    intro s m a
    simp only [List.foldl_cons]
    cases hev : evalSucceeds p s now x with
    | false =>
      obtain ⟨e, hpe, herr⟩ := checkContractP_error_of_fails p s x now hev
      have hstep : rankStep p now (m, s) x = (m, s) := by
        unfold rankStep
        rw [herr]
      rw [hstep, ih s m a]
      constructor
      · rintro (hm | ⟨hmem, he⟩)
        · exact Or.inl hm
        · exact Or.inr ⟨List.mem_cons_of_mem x hmem, he⟩
      · rintro (hm | ⟨hmem, he⟩)
        · exact Or.inl hm
        · rcases List.mem_cons.mp hmem with rfl | hmem'
          · rw [hev] at he
            exact Bool.noConfusion he
          · exact Or.inr ⟨hmem', he⟩
    | true =>
      obtain ⟨r, s', hok⟩ := checkContractP_ok_of_succeeds p s x now hev
      have hpres := evalSucceeds_preserved p s x now r s' hok
      have hstep : rankStep p now (m, s) x =
          (fun b => if b = x then some r.riskLevel else m b, s') := by
        unfold rankStep
        rw [hok]
      rw [hstep, ih s' _ a, hpres a]
      by_cases hax : a = x
      · subst hax
        simp [hev]
      · simp [hax]

/-- The sync fold collects exactly one error per failing address and aborts
nothing: the collected-failure count is the count of addresses whose
evaluation fails. -/
theorem syncFold_failures (p : SignalProvider) (now : Int) :
    ∀ (l : List String) (s : CheckerState) (es : List String),
      (l.foldl (syncStep p now) (s, es)).2.length =
        es.length + (l.filter (fun a => !(evalSucceeds p s now a))).length := by
  intro l
  induction l with
  | nil => intro s es; simp
  | cons x xs ih =>
    intro s es
    simp only [List.foldl_cons, List.filter_cons]
    cases hev : evalSucceeds p s now x with
    | false =>
      obtain ⟨e, hpe, herr⟩ := checkContractP_error_of_fails p s x now hev
      have hstep : syncStep p now (s, es) x = (s, es ++ [e]) := by
        unfold syncStep
        rw [herr]
      rw [hstep, ih s (es ++ [e])]
      simp only [hev, Bool.not_false, if_pos, List.length_append,
        List.length_cons, List.length_nil]
      omega
    | true =>
      obtain ⟨r, s', hok⟩ := checkContractP_ok_of_succeeds p s x now hev
      have hpres := evalSucceeds_preserved p s x now r s' hok
      have hstep : syncStep p now (s, es) x = (s', es) := by
        unfold syncStep
        rw [hok]
      rw [hstep, ih s' es]
      have hfeq : xs.filter (fun a => !(evalSucceeds p s' now a)) =
          xs.filter (fun a => !(evalSucceeds p s now a)) := by
        apply List.filter_congr
        intro b _
        rw [hpres b]
      rw [hfeq]
      simp [hev]

/-- A fresh cache entry survives the whole sync fold. -/
theorem syncFold_preserves_fresh (p : SignalProvider) (now : Int) :
    ∀ (l : List String) (s : CheckerState) (es : List String) (b : String)
      (c : RugPullCheckResult),
      s.checkCache b = some c → isCacheValid now c.timestamp = true →
      ∃ c', (l.foldl (syncStep p now) (s, es)).1.checkCache b = some c' ∧
        isCacheValid now c'.timestamp = true := by
  intro l
  induction l with
  | nil => intro s es b c hc hv; exact ⟨c, hc, hv⟩
  | cons x xs ih =>
    intro s es b c hc hv
    simp only [List.foldl_cons]
    cases hstep : checkContractP p s x now with
    | error e =>
      have h1 : syncStep p now (s, es) x = (s, es ++ [e]) := by
        unfold syncStep
        rw [hstep]
      rw [h1]
      exact ih s (es ++ [e]) b c hc hv
    | ok rs =>
      have h1 : syncStep p now (s, es) x = (rs.2, es) := by
        unfold syncStep
        rw [hstep]
      rw [h1]
      obtain ⟨hx, hxf, hother, _, _⟩ :=
        checkContractP_ok_state p s x now rs.1 rs.2 (by rw [hstep])
      by_cases hbx : b = x
      · subst hbx
        exact ih rs.2 es b rs.1 hx hxf
      · refine ih rs.2 es b c ?_ hv
        rw [hother b hbx]
        exact hc

/-- Every address in the sync list whose evaluation succeeds ends up with a
fresh cache entry, regardless of failures elsewhere in the batch. -/
theorem syncFold_processes (p : SignalProvider) (now : Int) :
    ∀ (l : List String) (s : CheckerState) (es : List String) (a : String),
      a ∈ l → evalSucceeds p s now a = true →
      ∃ c, (l.foldl (syncStep p now) (s, es)).1.checkCache a = some c ∧
        isCacheValid now c.timestamp = true := by
  intro l
  induction l with
  | nil => intro s es a ha _; exact absurd ha (List.not_mem_nil a)
  | cons x xs ih =>
    intro s es a ha hev
    simp only [List.foldl_cons]
    by_cases hax : a = x
    · subst hax
      obtain ⟨r, s', hok⟩ := checkContractP_ok_of_succeeds p s a now hev
      have h1 : syncStep p now (s, es) a = (s', es) := by
        unfold syncStep
        rw [hok]
      rw [h1]
      obtain ⟨hx, hxf, _, _, _⟩ := checkContractP_ok_state p s a now r s' hok
      exact syncFold_preserves_fresh p now xs s' es a r hx hxf
    · have hmem : a ∈ xs := by
        rcases List.mem_cons.mp ha with h | h
        · exact absurd h hax
        · exact h
      cases hstep : checkContractP p s x now with
      | error e =>
        have h1 : syncStep p now (s, es) x = (s, es ++ [e]) := by
          unfold syncStep
          rw [hstep]
        rw [h1]
        exact ih s (es ++ [e]) a hmem hev
      | ok rs =>
        have h1 : syncStep p now (s, es) x = (rs.2, es) := by
          unfold syncStep
          rw [hstep]
        rw [h1]
        have hpres := evalSucceeds_preserved p s x now rs.1 rs.2 (by rw [hstep])
        refine ih rs.2 es a hmem ?_
        rw [hpres a]
        exact hev

/-- C7: batch operations isolate per-item failures, for every provider, every
starting state and every address list (any length, any failure positions,
repeated addresses included): `getTrustRankings` returns a Map whose keys are
exactly the addresses whose evaluation succeeded (no placeholder tier for a
failed one), and `syncLiveMetadata` completes — it is a total function, never
an error — collecting exactly one failure per failing monitored address while
still evaluating and caching every succeeding one. -/
theorem batch_failure_isolation (p : SignalProvider) (s : CheckerState)
    (addrs : List String) (now : Int) :
    (∀ a, (getTrustRankings p s addrs now).1 a ≠ none ↔
      (a ∈ addrs ∧ evalSucceeds p s now a = true)) ∧
    ((syncLiveMetadata p s now).2.length =
      (s.monitoredContracts.filter (fun a => !(evalSucceeds p s now a))).length) ∧
    (∀ a, a ∈ s.monitoredContracts → evalSucceeds p s now a = true →
      ∃ c, (syncLiveMetadata p s now).1.checkCache a = some c ∧
        isCacheValid now c.timestamp = true) := by
  refine ⟨?_, ?_, ?_⟩
  · intro a
    unfold getTrustRankings
    rw [rankFold_keys p now addrs s (fun _ => none) a]
    simp
  · unfold syncLiveMetadata
    rw [syncFold_failures p now s.monitoredContracts s []]
    simp
  · intro a ha hev
    unfold syncLiveMetadata
    exact syncFold_processes p now s.monitoredContracts s [] a ha hev

/-- Witness for C7: three monitored addresses with the provider failing on
exactly "b": "a" is ranked, "b" gets no entry, one failure is collected, and
"c" is still evaluated and cached fresh. -/
theorem batch_failure_isolation_witness :
    ((getTrustRankings oneFailProvider threeMonitoredState ["a", "b", "c"] 0).1 "a" ≠ none) ∧
    ((getTrustRankings oneFailProvider threeMonitoredState ["a", "b", "c"] 0).1 "b" = none) ∧
    ((syncLiveMetadata oneFailProvider threeMonitoredState 0).2.length = 1) ∧
    (∃ c, (syncLiveMetadata oneFailProvider threeMonitoredState 0).1.checkCache "c" = some c ∧
      isCacheValid 0 c.timestamp = true) := by
  obtain ⟨h1, h2, h3⟩ :=
    batch_failure_isolation oneFailProvider threeMonitoredState ["a", "b", "c"] 0
  refine ⟨(h1 "a").mpr (by decide), ?_, ?_, h3 "c" (by decide) (by decide)⟩
  · by_cases hb : (getTrustRankings oneFailProvider threeMonitoredState
        ["a", "b", "c"] 0).1 "b" = none
    · exact hb
    · exact absurd ((h1 "b").mp hb) (by decide)
  · rw [h2]
    decide
